import Mathlib

/-!
Shallow embedding of the `logg` logging library (Go) and proofs of its
specification claims.

The embedding mirrors the repository's source files:
 - `file_appender.go` : `fileLogWriter` (rotating file sink)
 - console appender and `logWriter.println` (`logutils.go`)
 - `BaseLogger` facade: leveled emit methods, sync/async dispatch,
   `SetAppender`, `Flush`, `Close`.

Effectful operations (`os.Lstat`, `os.Rename`, file writes, channels) are
embedded by passing the environment's answers explicitly; machine `int`s
become `Int`.
-/

namespace Logg

/-! ## Levels (file_test.go, const block) -/

def LevelFatal : Int := 0

def LevelError : Int := 1

def LevelWarn : Int := 2

def LevelInfo : Int := 3

def LevelDebug : Int := 4

/-! ## Go time values and `time.Format`

The code formats timestamps with the layouts "2006-01-02 15:03:04" and
"2006-01-02".  `goFormatCore` interprets exactly the reference-time tokens
that can occur in those layouts, with Go's semantics: `2006` = year,
`01` = month, `02` = day of month, `15` = 24-hour hour, `03` = 12-hour
hour, `04` = minute, `05` = second; other characters are copied.
-/

structure GoTime where
  year : Nat
  month : Nat
  day : Nat
  hour : Nat
  minute : Nat
  second : Nat
deriving Repr, DecidableEq

/-- Zero-pad the decimal rendering of `n` to `width` digits (Go's
`%0Nd` / fixed-width layout tokens). -/
def padNum (width n : Nat) : String :=
  let s := toString n
  String.mk (List.replicate (width - s.length) '0') ++ s

/-- Go maps the 24-hour value to the 12-hour clock for token `03`. -/
def hourTo12 (h : Nat) : Nat :=
  let r := h % 12
  if r = 0 then 12 else r

def goFormatCore (t : GoTime) : List Char → List Char
  | '2' :: '0' :: '0' :: '6' :: rest => (padNum 4 t.year).data ++ goFormatCore t rest
  | '0' :: '1' :: rest => (padNum 2 t.month).data ++ goFormatCore t rest
  | '0' :: '2' :: rest => (padNum 2 t.day).data ++ goFormatCore t rest
  | '1' :: '5' :: rest => (padNum 2 t.hour).data ++ goFormatCore t rest
  | '0' :: '3' :: rest => (padNum 2 (hourTo12 t.hour)).data ++ goFormatCore t rest
  | '0' :: '4' :: rest => (padNum 2 t.minute).data ++ goFormatCore t rest
  | '0' :: '5' :: rest => (padNum 2 t.second).data ++ goFormatCore t rest
  | c :: rest => c :: goFormatCore t rest
  | [] => []

/-- Embedding of `when.Format(layout)` for the layouts the code uses. -/
def goFormat (t : GoTime) (layout : String) : String :=
  String.mk (goFormatCore t layout.data)

/-! ## fileLogWriter state (file_appender.go) -/

structure FileLogWriter where
  Filename : String
  MaxSize : Int
  maxSizeCurSize : Int
  Daily : Bool
  MaxDays : Int
  dailyOpenDate : Int
  Rotate : Bool
  Level : Int
  fileNameOnly : String
  fileSuffix : String
deriving Repr, DecidableEq

/-- Embedding of `fileLogWriter.needRotate`.  Note the `size` argument is
accepted and ignored, exactly as in the source. -/
def needRotate (f : FileLogWriter) (size : Int) (day : Int) : Bool :=
  (decide (f.MaxSize > 0) && decide (f.maxSizeCurSize ≥ f.MaxSize)) ||
    (f.Daily && decide (day ≠ f.dailyOpenDate))

/-- Archival name probed for size-triggered rotation:
`fileNameOnly + "_" + date + "_" + %03d(num) + fileSuffix`. -/
def sizeArchName (f : FileLogWriter) (dateStr : String) (num : Nat) : String :=
  f.fileNameOnly ++ "_" ++ dateStr ++ "_" ++ padNum 3 num ++ f.fileSuffix

/-- Archival name for day-triggered (non-size) rotation:
`fileNameOnly + "_" + date + fileSuffix`. -/
def dayArchName (f : FileLogWriter) (dateStr : String) : String :=
  f.fileNameOnly ++ "_" ++ dateStr ++ f.fileSuffix

/-- The probe loop of `doRotate` for `MaxSize > 0`
(`for ; err == nil && num <= 999; num++ { fName = ...; _, err = Lstat(fName) }`),
as a recursion on explicit fuel (the loop runs at most 999 iterations, so
`doRotate` supplies fuel 1000 and never exhausts it).  `ex` answers
`os.Lstat` (true = the file exists, i.e. `err == nil`).  Returns the final
`fName` together with the final value of `err == nil`. -/
def probeLoop (f : FileLogWriter) (ex : String → Bool) (dateStr : String) :
    Nat → String → Nat → String × Bool
  | 0, fName, _ => (fName, true)
  | fuel + 1, fName, num =>
    if num ≤ 999 then
      let fName' := sizeArchName f dateStr num
      if ex fName' then probeLoop f ex dateStr fuel fName' (num + 1)
      else (fName', false)
    else (fName, true)

/-- Answers of the operating system to the calls `doRotate` makes:
`ex` is `os.Lstat` existence, `renameErr`/`reopenErr` the results of
`os.Rename` and of `startLogging` (reopen + stat), `newOpenedSize` the
size `initFd` reads from the freshly opened file, and `nowDay` the
`time.Now().Day()` that `initFd` stores. -/
structure RotateEnv where
  ex : String → Bool
  renameErr : Option String
  reopenErr : Option String
  newOpenedSize : Int
  nowDay : Int

/-- Embedding of `fileLogWriter.doRotate`.  On success it returns the
updated writer (counters reset by `initFd`) and the archival name the live
file was renamed to. -/
def doRotate (f : FileLogWriter) (env : RotateEnv) (dateStr : String) :
    Except String (FileLogWriter × String) :=
  if ¬ env.ex f.Filename then
    .error "Rotate: lstat of live file failed"
  else
    let pr :=
      if f.MaxSize > 0 then probeLoop f env.ex dateStr 1000 "" 1
      else (dayArchName f dateStr, env.ex (dayArchName f dateStr))
    if pr.2 then
      .error ("Rotate: can not find free log number to rename " ++ f.Filename)
    else
      match env.renameErr with
      | some e => .error ("Rotate: rename error " ++ e)
      | none =>
        match env.reopenErr with
        | some e => .error ("Rotate: startLogging error " ++ e)
        | none =>
          .ok ({ f with maxSizeCurSize := env.newOpenedSize,
                        dailyOpenDate := env.nowDay }, pr.1)

/-! ## fileLogWriter.WriteMsg -/

/-- Environment for one `WriteMsg` call: the rotation environment plus the
result of `fileWriter.Write`. -/
structure WriteEnv where
  rotateEnv : RotateEnv
  writeErr : Option String

/-- Observable outcome of one `WriteMsg` call.  `wrote` is the string
passed to `fileWriter.Write` (`none` when the level filter dropped the
message), `rotated` records whether `doRotate` was invoked, `stderrLines`
what was printed to the process's error stream, and `ret` the returned
error value. -/
structure WriteOutput where
  fw : FileLogWriter
  rotated : Bool
  wrote : Option String
  stderrLines : List String
  ret : Option String
deriving Repr

/-- Embedding of `fileLogWriter.WriteMsg`. -/
def fileWriteMsg (f : FileLogWriter) (when : GoTime) (msg0 : String)
    (level : Int) (env : WriteEnv) : WriteOutput :=
  if level > f.Level then ⟨f, false, none, [], none⟩
  else
    let msg := goFormat when "2006-01-02 15:03:04" ++ msg0 ++ "\n"
    let step :=
      if f.Rotate && needRotate f (msg.length : Int) (when.day : Int) then
        match doRotate f env.rotateEnv (goFormat when "2006-01-02") with
        | .ok (f', _) => (f', true, ([] : List String))
        | .error e =>
          (f, true, ["FileLogAppender " ++ f.Filename ++ ":" ++ e])
      else (f, false, ([] : List String))
    match env.writeErr with
    | none =>
      ⟨{ step.1 with maxSizeCurSize := step.1.maxSizeCurSize + (msg.length : Int) },
        step.2.1, some msg, step.2.2, none⟩
    | some e => ⟨step.1, step.2.1, some msg, step.2.2, some e⟩

/-! ## Console appender (file_test.go) and logWriter.println (logutils.go) -/

/-- Embedding of `newBrush color`: wraps text in ANSI escapes. -/
def colorBrush (color : String) (text : String) : String :=
  "\x1b[" ++ color ++ "m" ++ text ++ "\x1b[0m"

/-- The `colors` table, indexed by level (Fatal..Debug). -/
def colors : List (String → String) :=
  [colorBrush "1;35", colorBrush "1;31", colorBrush "1;33",
   colorBrush "1;34", colorBrush "1;34"]

structure ConsoleWriter where
  Level : Int
  Colorful : Bool
deriving Repr, DecidableEq

/-- The line `logWriter.println` writes: timestamp, message, newline. -/
def printlnLine (when : GoTime) (msg : String) : String :=
  goFormat when "2006-01-02 15:03:04" ++ msg ++ "\n"

/-- Embedding of `consoleWriter.WriteMsg`: first component is the line
written to stdout (`none` when the level filter dropped the message),
second the returned error, which is always `nil` in the source. -/
def consoleWriteMsg (c : ConsoleWriter) (when : GoTime) (msg : String)
    (level : Int) : Option String × Option String :=
  if level > c.Level then (none, none)
  else
    let msg' := if c.Colorful then (colors.getD level.toNat id) msg else msg
    (some (printlnLine when msg'), none)

/-! ## Logger facade: per-level gate and sync emit (file_test.go)

Each of `Fatal`/`Error`/`Warn`/`Info`/`Debug` starts with
`if LevelX > log.level { return }`; `levelMethodGate` is that test.
-/

def levelMethodGate (logLevel methodLevel : Int) : Bool :=
  decide (methodLevel > logLevel)

/-- Synchronous emit of one message through the facade gate into a file
sink: `none` when the facade dropped it before `writeMsg`, otherwise the
`WriteMsg` outcome. -/
def syncEmitFile (T : Int) (f : FileLogWriter) (level : Int) (when : GoTime)
    (msg : String) (env : WriteEnv) : Option WriteOutput :=
  if levelMethodGate T level then none
  else some (fileWriteMsg f when msg level env)

/-- Synchronous emit through the facade gate into a console sink. -/
def syncEmitConsole (T : Int) (c : ConsoleWriter) (level : Int) (when : GoTime)
    (msg : String) : Option (Option String × Option String) :=
  if levelMethodGate T level then none
  else some (consoleWriteMsg c when msg level)

/-- Whether the file sink persisted (wrote bytes for) the emitted message. -/
def fileSinkPersisted (T : Int) (f : FileLogWriter) (level : Int)
    (when : GoTime) (msg : String) (env : WriteEnv) : Bool :=
  match syncEmitFile T f level when msg env with
  | none => false
  | some o => o.wrote.isSome

/-- Whether the console sink persisted the emitted message. -/
def consoleSinkPersisted (T : Int) (c : ConsoleWriter) (level : Int)
    (when : GoTime) (msg : String) : Bool :=
  match syncEmitConsole T c level when msg with
  | none => false
  | some o => o.1.isSome

/-- Embedding of `BaseLogger.writeToAppender` for one file sink: the
returned `WriteMsg` error is printed to stderr, never propagated (the
function has no error result). -/
def writeToAppenderFile (f : FileLogWriter) (when : GoTime) (msg : String)
    (level : Int) (env : WriteEnv) : FileLogWriter × List String :=
  let out := fileWriteMsg f when msg level env
  match out.ret with
  | some e =>
    (out.fw, out.stderrLines ++ ["unable to WriteMsg to appender:file,error:" ++ e])
  | none => (out.fw, out.stderrLines)

/-! ## Recorder sinks: fan-out, Close and the async engine

For the ordering claims the sinks are observed through the `Appender`
contract only; a `RecSink` records every `WriteMsg`, `Flush` and
`Destroy` it receives.
-/

abbrev Msg := GoTime × String × Int

structure RecSink where
  received : List Msg
  flushCount : Nat
  destroyCount : Nat
deriving Repr, DecidableEq

def RecSink.fresh : RecSink := ⟨[], 0, 0⟩

/-- One sink receiving one `WriteMsg`. -/
def recWrite (s : RecSink) (m : Msg) : RecSink :=
  { s with received := s.received ++ [m] }

/-- Embedding of `BaseLogger.writeToAppender`: fan one message out to
every registered sink, in registration order. -/
def writeToAppenderRec (sinks : List RecSink) (m : Msg) : List RecSink :=
  sinks.map (recWrite · m)

/-- Embedding of the synchronous branch of `BaseLogger.writeMsg`. -/
def syncWriteMsg (sinks : List RecSink) (m : Msg) : List RecSink :=
  writeToAppenderRec sinks m

/-- Emit a sequence of messages synchronously, in order. -/
def syncEmitAll (sinks : List RecSink) (msgs : List Msg) : List RecSink :=
  msgs.foldl syncWriteMsg sinks

/-- Embedding of the synchronous branch of `BaseLogger.Close`: `flush()`
(the message channel is empty in sync mode, so only each sink's `Flush`
runs), then `Destroy` on every sink, then `appenders = nil`.  Returns the
final sink objects and the cleared appender list. -/
def syncClose (sinks : List RecSink) : List RecSink × List RecSink :=
  let flushed := sinks.map (fun s => { s with flushCount := s.flushCount + 1 })
  let destroyed := flushed.map (fun s => { s with destroyCount := s.destroyCount + 1 })
  (destroyed, [])

/-! ## Async dispatch engine (BaseLogger.startLogging / Flush / Close) -/

inductive Token
  | flush
  | close
deriving DecidableEq, Repr

/-- State of the async engine: the buffered message channel contents (in
FIFO order), the pending control token (`singalChan` has capacity 1), the
sinks, whether `appenders` was cleared, the worker's `gameOver` flag, and
the `sync.WaitGroup` counter. -/
structure Engine where
  queue : List Msg
  signal : Option Token
  sinks : List RecSink
  appendersCleared : Bool
  gameOver : Bool
  wgCount : Int
deriving Repr

/-- The drain loop of `BaseLogger.flush`: deliver every queued message, in
order, to every sink. -/
def drainDeliver (sinks : List RecSink) (q : List Msg) : List RecSink :=
  q.foldl writeToAppenderRec sinks

/-- Embedding of the worker's `flush()`: drain the message channel to
empty, then call every sink's `Flush`. -/
def workerFlush (e : Engine) : Engine :=
  { e with
    queue := [],
    sinks := (drainDeliver e.sinks e.queue).map
      (fun s => { s with flushCount := s.flushCount + 1 }) }

/-- Embedding of the worker's handling of a control token in
`startLogging`: `flush()` first; on "close" additionally `Destroy` every
sink, clear `appenders` and set `gameOver`; finally `wg.Done()`. -/
def processSignal (e : Engine) (sg : Token) : Engine :=
  let e1 := workerFlush e
  let e2 :=
    if sg = Token.close then
      { e1 with
        sinks := e1.sinks.map (fun s => { s with destroyCount := s.destroyCount + 1 }),
        appendersCleared := true, gameOver := true }
    else e1
  { e2 with signal := none, wgCount := e2.wgCount - 1 }

/-- Interleaved small-step semantics of producers and the single worker.
Producers may enqueue messages and place a control token; the worker
either receives the head message or receives the pending token.  All steps
require the worker loop to still be running (`gameOver = false`). -/
inductive SysStep : Engine → Engine → Prop
  | enqueue (e : Engine) (m : Msg) (hg : e.gameOver = false) :
      SysStep e { e with queue := e.queue ++ [m] }
  | sendSignal (e : Engine) (sg : Token) (hg : e.gameOver = false)
      (hs : e.signal = none) :
      SysStep e { e with signal := some sg }
  | recvMsg (e : Engine) (m : Msg) (rest : List Msg) (hg : e.gameOver = false)
      (hq : e.queue = m :: rest) :
      SysStep e { e with queue := rest, sinks := writeToAppenderRec e.sinks m }
  | recvSignal (e : Engine) (sg : Token) (hg : e.gameOver = false)
      (hs : e.signal = some sg) :
      SysStep e (processSignal e sg)

/-- Reflexive-transitive closure of the system step. -/
def SysSteps : Engine → Engine → Prop :=
  Relation.ReflTransGen SysStep

/-- Embedding of the async branch of `BaseLogger.Flush`: send the "flush"
token; the caller's `wg.Wait()` returns only once the worker has processed
the token (so by the time `Flush` returns, `processSignal` has happened);
then `wg.Add(1)` restores the counter. -/
def FlushAsync (e : Engine) : Engine :=
  let e2 := processSignal { e with signal := some Token.flush } Token.flush
  { e2 with wgCount := e2.wgCount + 1 }

/-! ## SetAppender (file_test.go) -/

/-- An entry of the global `appenderMap`, observed through the error
behaviour of the constructed appender's `Init`. -/
structure AppenderSpec where
  initErr : String → Option String

/-- Embedding of `BaseLogger.SetAppender` over the registered names.
Returns the new appender-name list and the returned error. -/
def SetAppender (registry : String → Option AppenderSpec)
    (appenders : List String) (appenderName config : String) :
    List String × Option String :=
  if appenderName = "console" ∧ appenderName ∈ appenders then
    (appenders, some ("logg:duplicate appenderName " ++ appenderName ++
      " (you have set this appender before)"))
  else
    match registry appenderName with
    | none =>
      (appenders, some ("logg:unknow appenderName " ++ appenderName ++
        " (forgotten RegisterAppender?)"))
    | some spec =>
      match spec.initErr config with
      | some e => (appenders, some ("logg: appender init error " ++ e))
      | none => (appenders ++ [appenderName], none)

/-! ## Retention sweep (fileLogWriter.deleteOldLog) -/

/-- A file-system entry visited by `filepath.Walk`. -/
structure FileEntry where
  path : String
  isDir : Bool
  modTimeUnix : Int
deriving Repr, DecidableEq

/-- Embedding of Go's `filepath.Base`: strip trailing slashes, then keep
everything after the last slash; empty path gives ".", all-slash path
gives "/". -/
def filepathBase (p : String) : String :=
  if p = "" then "."
  else
    let l := (p.data.reverse.dropWhile (fun c => c = '/')).reverse
    if l = [] then "/"
    else String.mk (l.reverse.takeWhile (fun c => c ≠ '/')).reverse

/-- Embedding of Go's `strings.HasPrefix` over the characters. -/
def strHasPre (s pre : String) : Bool :=
  pre.data.isPrefixOf s.data

/-- Embedding of Go's `strings.HasSuffix` over the characters. -/
def strHasSuf (s suf : String) : Bool :=
  suf.data.isSuffixOf s.data

/-- The deletion test applied to one visited entry: not a directory,
modification time strictly older than `MaxDays` days before now, and the
base name carries the sink's `fileNameOnly` at the front and `fileSuffix`
at the back. -/
def oldLogMatch (f : FileLogWriter) (nowUnix : Int) (e : FileEntry) : Bool :=
  !e.isDir &&
    decide (e.modTimeUnix < nowUnix - (60 * 60 * 24 * f.MaxDays)) &&
    strHasPre (filepathBase e.path) f.fileNameOnly &&
    strHasSuf (filepathBase e.path) f.fileSuffix

/-- Embedding of `fileLogWriter.deleteOldLog`: with `MaxDays ≤ 0` it
returns before walking; otherwise it removes exactly the visited entries
passing `oldLogMatch`.  Returns the list of removed paths. -/
def deleteOldLog (f : FileLogWriter) (nowUnix : Int) (entries : List FileEntry) :
    List String :=
  if f.MaxDays ≤ 0 then []
  else (entries.filter (oldLogMatch f nowUnix)).map FileEntry.path

/-! ## Close lifecycle (BaseLogger.Close / NewLogger) -/

/-- Channel-lifecycle view of a `BaseLogger`: `NewLogger` creates both
channels open. -/
structure LoggerChans where
  isAsync : Bool
  msgChanClosed : Bool
  singalChanClosed : Bool
deriving Repr, DecidableEq

/-- Embedding of `BaseLogger.Close` at the channel level.  The async
branch first sends "close" on `singalChan` (a send on a closed channel
panics); both branches end with `close(log.msgChan)` and
`close(log.singalChan)` (closing a closed channel panics).  A panic is an
`error` result. -/
def closeChans (l : LoggerChans) : Except String LoggerChans :=
  if l.isAsync ∧ l.singalChanClosed then
    .error "panic: send on closed channel"
  else if l.msgChanClosed then
    .error "panic: close of closed channel"
  else if l.singalChanClosed then
    .error "panic: close of closed channel"
  else
    .ok { l with msgChanClosed := true, singalChanClosed := true }

/-- Bool-valued error test on an `Except` result. -/
def isErrorResult {α : Type} : Except String α → Bool
  | .error _ => true
  | .ok _ => false

/-! ## Trace invariant of the async engine -/

/-- Relates a starting engine state to a later one: some list `del` of
messages has been delivered (appended, in order, to every sink's
`received`), the messages enqueued meanwhile (`newMsgs`) keep FIFO order
(`e0.queue ++ newMsgs = del ++ e.queue`), `Destroy` has run on every sink
exactly once if and only if the worker processed a "close" token, and
after "close" the queue is empty. -/
def EngInv (e0 e : Engine) : Prop :=
  ∃ del newMsgs : List Msg,
    e0.queue ++ newMsgs = del ++ e.queue ∧
    List.Forall₂ (fun s0 s =>
      s.received = s0.received ++ del ∧
      s.destroyCount = s0.destroyCount + (if e.gameOver then 1 else 0))
      e0.sinks e.sinks ∧
    (e.gameOver = true → e.queue = [])

/-! ## Concrete fixtures used by the witness theorems -/

def fwTest : FileLogWriter :=
  ⟨"test.log", 10, 0, false, 0, 2, true, 4, "test", ".log"⟩

def fwTestDays : FileLogWriter :=
  ⟨"test.log", 10, 0, false, 3, 2, true, 4, "test", ".log"⟩

def gtTest : GoTime := ⟨2024, 1, 2, 13, 4, 59⟩

def rotEnvTest : RotateEnv :=
  ⟨fun s => decide (s = "test.log"), none, none, 0, 5⟩

def rotEnvRenameFail : RotateEnv :=
  ⟨fun s => decide (s = "test.log"), some "disk full", none, 0, 5⟩

def wrEnvTest : WriteEnv := ⟨rotEnvTest, none⟩

def cwTest : ConsoleWriter := ⟨4, false⟩

def msgTest : Msg := (gtTest, "m", 1)

def engTest : Engine :=
  ⟨[msgTest], some Token.close, [RecSink.fresh], false, false, 1⟩

def chansTest : LoggerChans := ⟨true, false, false⟩

def chansTestSync : LoggerChans := ⟨false, false, false⟩

def specTest : AppenderSpec := ⟨fun _ => none⟩

def regTest : String → Option AppenderSpec :=
  fun n => if n = "file" then some specTest else none

def entryOld : FileEntry := ⟨"test_2024-01-01.log", false, -300000⟩

def entryNew : FileEntry := ⟨"test_2024-01-09.log", false, 50⟩

def entryOther : FileEntry := ⟨"keep.txt", false, -300000⟩

/-- The writer state expected after the witness rotation of `fwTest`. -/
def fwRot : FileLogWriter :=
  { fwTest with maxSizeCurSize := rotEnvTest.newOpenedSize,
                dailyOpenDate := rotEnvTest.nowDay }

/-! ## Helper lemmas -/

/-- When the size threshold is hit (and the message passes the level
filter), `WriteMsg` attempts rotation no matter what the rotation and
write environments answer. -/
theorem fileWriteMsg_rotated_true (f : FileLogWriter) (when : GoTime)
    (msg : String) (level : Int) (env : WriteEnv)
    (hnl : ¬ level > f.Level) (hrot : f.Rotate = true)
    (hms : 0 < f.MaxSize) (hge : f.MaxSize ≤ f.maxSizeCurSize) :
    (fileWriteMsg f when msg level env).rotated = true := by
  have hnr : ∀ sz day : Int, needRotate f sz day = true := by
    intro sz day
    simp only [needRotate, Bool.or_eq_true, Bool.and_eq_true, decide_eq_true_eq]
    exact Or.inl ⟨hms, hge⟩
  cases henv : env.writeErr <;>
    cases hdo : doRotate f env.rotateEnv (goFormat when "2006-01-02") <;>
    simp [fileWriteMsg, hnl, hrot, hnr, henv, hdo]

/-! ## Claim C1: both level checks gate persistence -/

/-- C1: a sink persists an emitted message at level L exactly when L ≤ the
logger-wide threshold T and L ≤ the sink's own configured level, the
logger check at emit time and the sink check again inside `WriteMsg`; when
either check fails the message is dropped and no error is returned. -/
theorem claim1_level_checks (T level : Int) (f : FileLogWriter)
    (c : ConsoleWriter) (when : GoTime) (msg : String) (env : WriteEnv) :
    fileSinkPersisted T f level when msg env
      = (decide (level ≤ T) && decide (level ≤ f.Level)) ∧
    consoleSinkPersisted T c level when msg
      = (decide (level ≤ T) && decide (level ≤ c.Level)) ∧
    (level > f.Level → fileWriteMsg f when msg level env = ⟨f, false, none, [], none⟩) ∧
    (level > c.Level → consoleWriteMsg c when msg level = (none, none)) ∧
    (consoleWriteMsg c when msg level).2 = none := by
  refine ⟨?_, ?_, ?_, ?_, ?_⟩
  · by_cases h1 : level > T <;> by_cases h2 : level > f.Level <;>
      cases henv : env.writeErr <;>
      simp [fileSinkPersisted, syncEmitFile, levelMethodGate, fileWriteMsg,
        h1, h2, henv] <;> omega
  · by_cases h1 : level > T <;> by_cases h2 : level > c.Level <;>
      simp [consoleSinkPersisted, syncEmitConsole, levelMethodGate,
        consoleWriteMsg, h1, h2] <;> omega
  · intro h2
    simp [fileWriteMsg, h2]
  · intro h2
    simp [consoleWriteMsg, h2]
  · by_cases h2 : level > c.Level <;> simp [consoleWriteMsg, h2]

/-- Witness for C1 at concrete inputs. -/
theorem claim1_witness :
    fileSinkPersisted 4 fwTest 3 gtTest "m" wrEnvTest
      = (decide ((3 : Int) ≤ 4) && decide ((3 : Int) ≤ fwTest.Level)) ∧
    consoleSinkPersisted 4 cwTest 3 gtTest "m"
      = (decide ((3 : Int) ≤ 4) && decide ((3 : Int) ≤ cwTest.Level)) :=
  ⟨(claim1_level_checks 4 3 fwTest cwTest gtTest "m" wrEnvTest).1,
   (claim1_level_checks 4 3 fwTest cwTest gtTest "m" wrEnvTest).2.1⟩

/-! ## Claim C2: rotation trigger uses the pre-write byte count -/

/-- C2: with rotation enabled, `WriteMsg` attempts rotation before the
write exactly when `maxSize > 0` and the pre-write running byte count has
reached `maxSize`, or daily rotation is on and the day-of-month differs
from the opened day; a write that itself crosses the size budget still
completes on the current file, and it is the next write that rotates
first. -/
theorem claim2_rotation_trigger (f : FileLogWriter) (when : GoTime)
    (msg : String) (level : Int) (env : WriteEnv)
    (hrot : f.Rotate = true) (hlev : level ≤ f.Level) :
    ((fileWriteMsg f when msg level env).rotated =
      ((decide (f.MaxSize > 0) && decide (f.maxSizeCurSize ≥ f.MaxSize)) ||
        (f.Daily && decide ((when.day : Int) ≠ f.dailyOpenDate)))) ∧
    (f.maxSizeCurSize < f.MaxSize → f.Daily = false → env.writeErr = none →
      (fileWriteMsg f when msg level env).rotated = false ∧
      (fileWriteMsg f when msg level env).fw.maxSizeCurSize =
        f.maxSizeCurSize +
          ((goFormat when "2006-01-02 15:03:04" ++ msg ++ "\n").length : Int) ∧
      (∀ when2 msg2 level2 env2, level2 ≤ f.Level → 0 < f.MaxSize →
        f.MaxSize ≤ (fileWriteMsg f when msg level env).fw.maxSizeCurSize →
        (fileWriteMsg (fileWriteMsg f when msg level env).fw
          when2 msg2 level2 env2).rotated = true)) := by
  have hnl : ¬ level > f.Level := by omega
  constructor
  · have harg : needRotate f
        ((goFormat when "2006-01-02 15:03:04" ++ msg ++ "\n").length : Int)
        (when.day : Int) =
      ((decide (f.MaxSize > 0) && decide (f.maxSizeCurSize ≥ f.MaxSize)) ||
        (f.Daily && decide ((when.day : Int) ≠ f.dailyOpenDate))) := rfl
    rw [← harg]
    cases henv : env.writeErr <;>
      cases hdo : doRotate f env.rotateEnv (goFormat when "2006-01-02") <;>
      (simp [fileWriteMsg, hnl, hrot, henv, hdo]
       all_goals (split <;> simp_all))
  · intro hcur hdaily henv
    have hnr : ∀ sz day : Int, needRotate f sz day = false := by
      intro sz day
      simp [needRotate, hdaily]
      omega
    have hout : fileWriteMsg f when msg level env =
        ⟨{ f with maxSizeCurSize := f.maxSizeCurSize +
            ((goFormat when "2006-01-02 15:03:04" ++ msg ++ "\n").length : Int) },
          false, some (goFormat when "2006-01-02 15:03:04" ++ msg ++ "\n"),
          [], none⟩ := by
      simp [fileWriteMsg, hnl, hrot, hnr, henv]
    refine ⟨by simp [hout], by simp [hout], ?_⟩
    intro when2 msg2 level2 env2 hlev2 hms hge
    rw [hout] at hge ⊢
    exact fileWriteMsg_rotated_true _ when2 msg2 level2 env2
      (show ¬ level2 > f.Level by omega) hrot hms hge

/-- Witness for C2 at concrete inputs: the first write on an empty file
does not rotate even though it crosses `maxsize = 10`. -/
theorem claim2_witness :
    fwTest.Rotate = true ∧ (3 : Int) ≤ fwTest.Level ∧
    (fileWriteMsg fwTest gtTest "m" 3 wrEnvTest).rotated = false :=
  ⟨rfl, by decide,
    ((claim2_rotation_trigger fwTest gtTest "m" 3 wrEnvTest rfl
      (by decide)).1).trans (by decide)⟩

/-! ## Claim C9: the timestamp layout renders the hour twice, no seconds -/

/-- C9: every persisted message in the console sink and the file sink is
prefixed with the timestamp rendered through the Go layout
"2006-01-02 15:03:04", which produces the date, the 24-hour hour, the
12-hour hour and the minute; the rendering contains no seconds field (it
is independent of the seconds value) and the hour appears twice. -/
theorem claim9_timestamp_layout :
    (∀ t : GoTime, goFormat t "2006-01-02 15:03:04" =
      padNum 4 t.year ++ "-" ++ padNum 2 t.month ++ "-" ++ padNum 2 t.day ++
        " " ++ padNum 2 t.hour ++ ":" ++ padNum 2 (hourTo12 t.hour) ++ ":" ++
        padNum 2 t.minute) ∧
    (∀ (t : GoTime) (s s' : Nat),
      goFormat { t with second := s } "2006-01-02 15:03:04" =
      goFormat { t with second := s' } "2006-01-02 15:03:04") ∧
    (∀ (f : FileLogWriter) (when : GoTime) (msg : String) (level : Int)
        (env : WriteEnv), ¬ level > f.Level →
      (fileWriteMsg f when msg level env).wrote =
        some (goFormat when "2006-01-02 15:03:04" ++ msg ++ "\n")) ∧
    (∀ (c : ConsoleWriter) (when : GoTime) (msg : String) (level : Int),
      ¬ level > c.Level →
      ∃ rest, (consoleWriteMsg c when msg level).1 =
        some (goFormat when "2006-01-02 15:03:04" ++ rest)) := by
  have hfmt : ∀ t : GoTime, goFormat t "2006-01-02 15:03:04" =
      padNum 4 t.year ++ "-" ++ padNum 2 t.month ++ "-" ++ padNum 2 t.day ++
        " " ++ padNum 2 t.hour ++ ":" ++ padNum 2 (hourTo12 t.hour) ++ ":" ++
        padNum 2 t.minute := by
    intro t
    apply String.ext
    simp [goFormat, goFormatCore, String.data_append]
  refine ⟨hfmt, ?_, ?_, ?_⟩
  · intro t s s'
    rw [hfmt, hfmt]
  · intro f when msg level env hl
    cases henv : env.writeErr <;> simp [fileWriteMsg, hl, henv]
  · intro c when msg level hl
    refine ⟨(if c.Colorful then (colors.getD level.toNat id) msg else msg) ++ "\n", ?_⟩
    simp [consoleWriteMsg, printlnLine, hl, String.append_assoc]

/-- Witness for C9 at concrete inputs: hour 13 renders as "13:01:04"
(24-hour hour, 12-hour hour, minute), with the seconds value 59 absent. -/
theorem claim9_witness :
    goFormat gtTest "2006-01-02 15:03:04" =
      padNum 4 gtTest.year ++ "-" ++ padNum 2 gtTest.month ++ "-" ++
        padNum 2 gtTest.day ++ " " ++ padNum 2 gtTest.hour ++ ":" ++
        padNum 2 (hourTo12 gtTest.hour) ++ ":" ++ padNum 2 gtTest.minute ∧
    (fileWriteMsg fwTest gtTest "m" 3 wrEnvTest).wrote =
      some (goFormat gtTest "2006-01-02 15:03:04" ++ "m" ++ "\n") :=
  ⟨claim9_timestamp_layout.1 gtTest,
   claim9_timestamp_layout.2.2.1 fwTest gtTest "m" 3 wrEnvTest (by decide)⟩

/-! ## Claim C10: Close is not idempotent -/

/-- C10: `Close` closes the logger's message channel and signal channel,
so a second `Close` on the same logger (either mode) hits an
already-closed channel and panics. -/
theorem claim10_close_not_idempotent (l : LoggerChans)
    (h1 : l.msgChanClosed = false) (h2 : l.singalChanClosed = false) :
    closeChans l = .ok { l with msgChanClosed := true, singalChanClosed := true } ∧
    isErrorResult (closeChans
      { l with msgChanClosed := true, singalChanClosed := true }) = true := by
  constructor
  · simp [closeChans, h1, h2]
  · cases ha : l.isAsync <;> simp [closeChans, ha, isErrorResult]

/-- Witness for C10: first `Close` succeeds and the second panics, in both
async and sync mode. -/
theorem claim10_witness :
    closeChans chansTest =
      .ok { chansTest with msgChanClosed := true, singalChanClosed := true } ∧
    isErrorResult (closeChans
      { chansTest with msgChanClosed := true, singalChanClosed := true }) = true ∧
    closeChans chansTestSync =
      .ok { chansTestSync with msgChanClosed := true, singalChanClosed := true } ∧
    isErrorResult (closeChans
      { chansTestSync with msgChanClosed := true, singalChanClosed := true }) = true :=
  ⟨(claim10_close_not_idempotent chansTest rfl rfl).1,
   (claim10_close_not_idempotent chansTest rfl rfl).2,
   (claim10_close_not_idempotent chansTestSync rfl rfl).1,
   (claim10_close_not_idempotent chansTestSync rfl rfl).2⟩

/-! ## Claim C5: SetAppender error conditions -/

/-- C5: `SetAppender(name, config)` fails, leaving the sink list
unchanged, exactly when name is "console" and a "console" sink is already
registered, or name is absent from the constructor registry, or the
constructed sink's `Init(config)` errors; names other than "console" are
never deduplicated, so duplicate registrations append further instances. -/
theorem claim5_set_appender (registry : String → Option AppenderSpec)
    (appenders : List String) (appenderName config : String) :
    ((SetAppender registry appenders appenderName config).2 ≠ none ↔
      ((appenderName = "console" ∧ appenderName ∈ appenders) ∨
        registry appenderName = none ∨
        (∃ spec, registry appenderName = some spec ∧
          spec.initErr config ≠ none))) ∧
    ((SetAppender registry appenders appenderName config).2 ≠ none →
      (SetAppender registry appenders appenderName config).1 = appenders) ∧
    (∀ spec, appenderName ≠ "console" → registry appenderName = some spec →
      spec.initErr config = none →
      SetAppender registry appenders appenderName config =
        (appenders ++ [appenderName], none)) := by
  refine ⟨?_, ?_, ?_⟩
  · by_cases hdup : appenderName = "console" ∧ appenderName ∈ appenders
    · obtain ⟨h1, h2⟩ := hdup
      subst h1
      simp [SetAppender, h2]
    · cases hreg : registry appenderName with
      | none => simp [SetAppender, hdup, hreg]
      | some spec =>
        cases hinit : spec.initErr config <;>
          simp [SetAppender, hdup, hreg, hinit]
  · intro herr
    by_cases hdup : appenderName = "console" ∧ appenderName ∈ appenders
    · obtain ⟨h1, h2⟩ := hdup
      subst h1
      simp [SetAppender, h2]
    · cases hreg : registry appenderName with
      | none => simp [SetAppender, hdup, hreg]
      | some spec =>
        cases hinit : spec.initErr config with
        | none => simp [SetAppender, hdup, hreg, hinit] at herr
        | some e => simp [SetAppender, hdup, hreg, hinit]
  · intro spec hname hreg hinit
    have hdup : ¬ (appenderName = "console" ∧ appenderName ∈ appenders) := by
      intro h
      exact hname h.1
    simp [SetAppender, hdup, hreg, hinit]

/-- Witness for C5: a duplicate "console" registration fails and leaves
the list unchanged; a second "file" registration succeeds and appends. -/
theorem claim5_witness :
    (SetAppender regTest ["console"] "console" "").1 = ["console"] ∧
    SetAppender regTest ["file"] "file" "" = (["file", "file"], none) :=
  ⟨(claim5_set_appender regTest ["console"] "console" "").2.1 (by decide),
   (claim5_set_appender regTest ["file"] "file" "").2.2 specTest
     (by decide) rfl rfl⟩

/-! ## Claim C8: retention sweep -/

/-- C8: the retention sweep deletes exactly the visited non-directory
entries whose base name starts with the sink's base-name and ends with its
extension and whose modification time is more than `maxdays` days old;
everything else is untouched, and `maxdays = 0` disables the sweep
entirely. -/
theorem claim8_retention_sweep (f : FileLogWriter) (nowUnix : Int)
    (entries : List FileEntry) :
    (0 < f.MaxDays →
      deleteOldLog f nowUnix entries =
        (entries.filter (fun e => !e.isDir &&
          decide (e.modTimeUnix < nowUnix - 60 * 60 * 24 * f.MaxDays) &&
          strHasPre (filepathBase e.path) f.fileNameOnly &&
          strHasSuf (filepathBase e.path) f.fileSuffix)).map FileEntry.path) ∧
    (∀ p, p ∈ deleteOldLog f nowUnix entries ↔
      (0 < f.MaxDays ∧ ∃ e, e ∈ entries ∧ e.path = p ∧
        oldLogMatch f nowUnix e = true)) ∧
    (f.MaxDays = 0 → deleteOldLog f nowUnix entries = []) := by
  refine ⟨?_, ?_, ?_⟩
  · intro hpos
    have hnotle : ¬ f.MaxDays ≤ 0 := by omega
    simp only [deleteOldLog, hnotle, if_false]
    rfl
  · intro p
    by_cases hpos : f.MaxDays ≤ 0
    · have : ¬ 0 < f.MaxDays := by omega
      simp [deleteOldLog, hpos, this]
    · have hp : 0 < f.MaxDays := by omega
      simp only [deleteOldLog, hpos, if_false, List.mem_map, List.mem_filter]
      constructor
      · rintro ⟨e, ⟨he, hm⟩, hpath⟩
        exact ⟨hp, e, he, hpath, hm⟩
      · rintro ⟨_, e, he, hpath, hm⟩
        exact ⟨e, ⟨he, hm⟩, hpath⟩
  · intro hzero
    simp [deleteOldLog, hzero]

/-- Witness for C8: with `maxdays = 3`, an over-age matching file is
deleted while a fresh matching file and an over-age non-matching file
survive. -/
theorem claim8_witness :
    deleteOldLog fwTestDays 100 [entryOld, entryNew, entryOther] =
      [entryOld.path] ∧
    deleteOldLog fwTest 100 [entryOld, entryNew, entryOther] = [] :=
  ⟨((claim8_retention_sweep fwTestDays 100 [entryOld, entryNew, entryOther]).1
      (by decide)).trans (by decide),
   (claim8_retention_sweep fwTest 100 [entryOld, entryNew, entryOther]).2.2 rfl⟩

/-! ## Claim C3: synchronous delivery order and Close -/

/-- Folding the fan-out over a message list appends that list, in order,
to every sink's `received`. -/
theorem foldl_writeToAppenderRec (msgs : List Msg) :
    ∀ sinks : List RecSink, msgs.foldl writeToAppenderRec sinks =
      sinks.map (fun s => { s with received := s.received ++ msgs }) := by
  induction msgs with
  | nil =>
    intro sinks
    simp
  | cons m ms ih =>
    intro sinks
    rw [List.foldl_cons, ih, writeToAppenderRec, List.map_map]
    apply List.map_congr_left
    intro s _
    simp [recWrite, Function.comp]

/-- C3: a single producer emitting N messages synchronously and then
calling `Close` delivers exactly those N messages, in emission order, to
every registered sink; afterwards `Destroy` has run exactly once per sink
and the appender list is cleared. -/
theorem claim3_sync_order_and_close (sinks : List RecSink) (msgs : List Msg)
    (hfresh : ∀ s ∈ sinks, s = RecSink.fresh) :
    (syncClose (syncEmitAll sinks msgs)).2 = [] ∧
    (syncClose (syncEmitAll sinks msgs)).1.length = sinks.length ∧
    (∀ s ∈ (syncClose (syncEmitAll sinks msgs)).1,
      s.received = msgs ∧ s.destroyCount = 1 ∧ s.flushCount = 1) := by
  have hall : syncEmitAll sinks msgs =
      sinks.map (fun s => { s with received := s.received ++ msgs }) :=
    foldl_writeToAppenderRec msgs sinks
  refine ⟨rfl, ?_, ?_⟩
  · simp [syncClose, hall]
  · intro s hs
    simp only [syncClose, hall, List.map_map, List.mem_map] at hs
    obtain ⟨s0, hs0, rfl⟩ := hs
    have := hfresh s0 hs0
    subst this
    simp [RecSink.fresh, Function.comp]

/-- Witness for C3: one fresh sink, two messages. -/
theorem claim3_witness :
    (syncClose (syncEmitAll [RecSink.fresh] [msgTest, msgTest])).2 = [] ∧
    (syncClose (syncEmitAll [RecSink.fresh] [msgTest, msgTest])).1.length = 1 :=
  ⟨(claim3_sync_order_and_close [RecSink.fresh] [msgTest, msgTest]
      (by simp)).1,
   (claim3_sync_order_and_close [RecSink.fresh] [msgTest, msgTest]
      (by simp)).2.1⟩

/-! ## Claim C6: rotation naming -/

/-- When the probe loop reports a free name (`err != nil`), the name it
returns is the first unused numbered archival name at or after the
starting probe number. -/
theorem probeLoop_found (f : FileLogWriter) (ex : String → Bool) (d : String) :
    ∀ (fuel num : Nat) (fName : String), 1001 ≤ fuel + num →
      (probeLoop f ex d fuel fName num).2 = false →
      ∃ k, num ≤ k ∧ k ≤ 999 ∧
        probeLoop f ex d fuel fName num = (sizeArchName f d k, false) ∧
        ex (sizeArchName f d k) = false ∧
        ∀ j, num ≤ j → j < k → ex (sizeArchName f d j) = true := by
  intro fuel
  induction fuel with
  | zero =>
    intro num fName hfuel hres
    simp [probeLoop] at hres
  | succ fuel ih =>
    intro num fName hfuel hres
    by_cases h9 : num ≤ 999
    · cases hx : ex (sizeArchName f d num) with
      | true =>
        have hstep : probeLoop f ex d (fuel + 1) fName num =
            probeLoop f ex d fuel (sizeArchName f d num) (num + 1) := by
          simp [probeLoop, h9, hx]
        rw [hstep] at hres ⊢
        obtain ⟨k, hk1, hk2, hk3, hk4, hk5⟩ :=
          ih (num + 1) (sizeArchName f d num) (by omega) hres
        refine ⟨k, by omega, hk2, hk3, hk4, ?_⟩
        intro j hj1 hj2
        by_cases hj : j = num
        · subst hj; exact hx
        · exact hk5 j (by omega) hj2
      | false =>
        have hstep : probeLoop f ex d (fuel + 1) fName num =
            (sizeArchName f d num, false) := by
          simp [probeLoop, h9, hx]
        refine ⟨num, le_refl num, h9, hstep, hx, ?_⟩
        intro j hj1 hj2
        omega
    · have hstep : probeLoop f ex d (fuel + 1) fName num = (fName, true) := by
        simp [probeLoop, h9]
      rw [hstep] at hres
      simp at hres

/-- C6: a successful size-configured rotation renames the live file to
`base_YYYY-MM-DD_NNN.ext` with NNN the first unused suffix probed in order
1..999; a day rotation without a size threshold renames it to
`base_YYYY-MM-DD.ext`; in both cases the writer is reopened at the
originally configured path with the byte counter and opened day reset. -/
theorem claim6_rotation_naming (f : FileLogWriter) (env : RotateEnv)
    (dateStr : String) (f2 : FileLogWriter) (arch : String)
    (h : doRotate f env dateStr = .ok (f2, arch)) :
    (0 < f.MaxSize → ∃ k, 1 ≤ k ∧ k ≤ 999 ∧ arch = sizeArchName f dateStr k ∧
      env.ex arch = false ∧
      ∀ j, 1 ≤ j → j < k → env.ex (sizeArchName f dateStr j) = true) ∧
    (f.MaxSize ≤ 0 → arch = dayArchName f dateStr ∧ env.ex arch = false) ∧
    f2.maxSizeCurSize = env.newOpenedSize ∧ f2.dailyOpenDate = env.nowDay ∧
    f2.Filename = f.Filename ∧ f2.fileNameOnly = f.fileNameOnly ∧
    f2.fileSuffix = f.fileSuffix := by
  by_cases hex : env.ex f.Filename = true
  swap
  · simp [doRotate, hex] at h
  by_cases hms : f.MaxSize > 0
  · have hpr : (if f.MaxSize > 0 then probeLoop f env.ex dateStr 1000 "" 1
        else (dayArchName f dateStr, env.ex (dayArchName f dateStr))) =
        probeLoop f env.ex dateStr 1000 "" 1 := by simp [hms]
    rw [doRotate] at h
    rw [if_neg (by simp [hex]), hpr] at h
    cases hpr2 : (probeLoop f env.ex dateStr 1000 "" 1).2 with
    | true => simp [hpr2] at h
    | false =>
      rw [if_neg (by simp [hpr2])] at h
      cases hrn : env.renameErr with
      | some e => simp [hrn] at h
      | none =>
        cases hro : env.reopenErr with
        | some e => simp [hro, hrn] at h
        | none =>
          rw [hrn, hro] at h
          simp only [Except.ok.injEq, Prod.mk.injEq] at h
          obtain ⟨hf2, harch⟩ := h
          obtain ⟨k, hk1, hk2, hk3, hk4, hk5⟩ :=
            probeLoop_found f env.ex dateStr 1000 1 "" (by omega) hpr2
          have harch2 : arch = sizeArchName f dateStr k := by
            rw [← harch, hk3]
          refine ⟨?_, by omega, ?_, ?_, ?_, ?_, ?_⟩
          · intro _
            refine ⟨k, hk1, hk2, harch2, ?_, hk5⟩
            rw [harch2]
            exact hk4
          all_goals
            rw [← hf2]
  · have hms2 : f.MaxSize ≤ 0 := by omega
    rw [doRotate] at h
    rw [if_neg (by simp [hex]), if_neg hms] at h
    cases hday : env.ex (dayArchName f dateStr) with
    | true => rw [hday] at h; simp at h
    | false =>
      rw [hday] at h
      rw [if_neg (by simp)] at h
      cases hrn : env.renameErr with
      | some e => simp [hrn] at h
      | none =>
        cases hro : env.reopenErr with
        | some e => simp [hro, hrn] at h
        | none =>
          rw [hrn, hro] at h
          simp only [Except.ok.injEq, Prod.mk.injEq] at h
          obtain ⟨hf2, harch⟩ := h
          refine ⟨by omega, ?_, ?_, ?_, ?_, ?_, ?_⟩
          · intro _
            refine ⟨harch.symm, ?_⟩
            rw [harch] at hday
            exact hday
          all_goals
            rw [← hf2]

/-- Witness for C6: rotating `test.log` (size-configured, only the live
file exists) renames to `test_2024-01-02_001.log` and resets the counters. -/
theorem claim6_witness :
    fwRot.maxSizeCurSize = rotEnvTest.newOpenedSize ∧
    fwRot.dailyOpenDate = rotEnvTest.nowDay ∧
    fwRot.Filename = fwTest.Filename :=
  let h := claim6_rotation_naming fwTest rotEnvTest "2024-01-02"
    fwRot "test_2024-01-02_001.log" (by rfl)
  ⟨h.2.2.1, h.2.2.2.1, h.2.2.2.2.1⟩

/-! ## Claim C7: rotation failures are reported, never propagated -/

/-- C7: when rotation cannot find a free archival name in the probe range
or the rename or reopen fails, `doRotate` returns an error; `WriteMsg`
prints that error to the process's error stream and still proceeds with
the write on the current handle; and `writeToAppender` consumes any
`WriteMsg` error by printing it, so the producer-facing emit path
propagates no error. -/
theorem claim7_error_handling (f : FileLogWriter) (env : WriteEnv)
    (when : GoTime) (msg : String) (level : Int) :
    (∀ d, env.rotateEnv.ex f.Filename = true →
      ((0 < f.MaxSize ∧ (probeLoop f env.rotateEnv.ex d 1000 "" 1).2 = true) ∨
        (f.MaxSize ≤ 0 ∧ env.rotateEnv.ex (dayArchName f d) = true) ∨
        env.rotateEnv.renameErr ≠ none ∨ env.rotateEnv.reopenErr ≠ none) →
      isErrorResult (doRotate f env.rotateEnv d) = true) ∧
    (∀ e2, level ≤ f.Level → f.Rotate = true →
      needRotate f
        ((goFormat when "2006-01-02 15:03:04" ++ msg ++ "\n").length : Int)
        (when.day : Int) = true →
      doRotate f env.rotateEnv (goFormat when "2006-01-02") = .error e2 →
      (fileWriteMsg f when msg level env).stderrLines =
        ["FileLogAppender " ++ f.Filename ++ ":" ++ e2] ∧
      (fileWriteMsg f when msg level env).wrote =
        some (goFormat when "2006-01-02 15:03:04" ++ msg ++ "\n")) ∧
    ((writeToAppenderFile f when msg level env).1 =
      (fileWriteMsg f when msg level env).fw ∧
    (∀ e3, (fileWriteMsg f when msg level env).ret = some e3 →
      ("unable to WriteMsg to appender:file,error:" ++ e3) ∈
        (writeToAppenderFile f when msg level env).2)) := by
  refine ⟨?_, ?_, ?_, ?_⟩
  · intro d hex hfail
    rw [doRotate, if_neg (by simp [hex])]
    by_cases hms : f.MaxSize > 0
    · rw [if_pos hms]
      cases hpr2 : (probeLoop f env.rotateEnv.ex d 1000 "" 1).2 with
      | true => simp [hpr2, isErrorResult]
      | false =>
        rw [if_neg (by simp [hpr2])]
        cases hrn : env.rotateEnv.renameErr with
        | some e => simp [isErrorResult]
        | none =>
          cases hro : env.rotateEnv.reopenErr with
          | some e => simp [isErrorResult]
          | none =>
            rcases hfail with ⟨_, h⟩ | ⟨h, _⟩ | h | h
            · rw [hpr2] at h; exact absurd h (by simp)
            · exact absurd hms (by omega)
            · exact absurd hrn h
            · exact absurd hro h
    · rw [if_neg hms]
      cases hday : env.rotateEnv.ex (dayArchName f d) with
      | true => simp [isErrorResult]
      | false =>
        cases hrn : env.rotateEnv.renameErr with
        | some e => simp [hrn, isErrorResult]
        | none =>
          cases hro : env.rotateEnv.reopenErr with
          | some e => simp [hrn, hro, isErrorResult]
          | none =>
            rcases hfail with ⟨h, _⟩ | ⟨_, h⟩ | h | h
            · exact absurd h hms
            · rw [hday] at h; exact absurd h (by simp)
            · exact absurd hrn h
            · exact absurd hro h
  · intro e2 hlev hrot hneed hdo
    have hnl : ¬ level > f.Level := by omega
    have hneed2 : ∀ sz : Int, needRotate f sz (when.day : Int) = true :=
      fun _ => hneed
    cases henv : env.writeErr <;>
      (constructor <;> simp [fileWriteMsg, hnl, hrot, hneed2, henv, hdo])
  · cases hret : (fileWriteMsg f when msg level env).ret <;>
      simp [writeToAppenderFile, hret]
  · intro e3 hret
    simp [writeToAppenderFile, hret]

/-- Witness for C7: a failing rename makes `doRotate` fail. -/
theorem claim7_witness :
    isErrorResult (doRotate fwTest rotEnvRenameFail "2024-01-02") = true :=
  (claim7_error_handling fwTest ⟨rotEnvRenameFail, none⟩ gtTest "m" 1).1
    "2024-01-02" rfl (Or.inr (Or.inr (Or.inl (by decide))))

/-- The worker flush drain delivers the whole queue, in order. -/
theorem drainDeliver_eq (q : List Msg) (sinks : List RecSink) :
    drainDeliver sinks q =
      sinks.map (fun s => { s with received := s.received ++ q }) :=
  foldl_writeToAppenderRec q sinks

/-- Field-level description of the worker handling one control token. -/
theorem processSignal_fields (e : Engine) (sg : Token) :
    (processSignal e sg).queue = [] ∧
    (processSignal e sg).signal = none ∧
    (processSignal e sg).sinks = e.sinks.map (fun s =>
      { s with received := s.received ++ e.queue,
               flushCount := s.flushCount + 1,
               destroyCount := s.destroyCount +
                 (if sg = Token.close then 1 else 0) }) ∧
    (processSignal e sg).gameOver =
      (if sg = Token.close then true else e.gameOver) ∧
    (processSignal e sg).appendersCleared =
      (if sg = Token.close then true else e.appendersCleared) ∧
    (processSignal e sg).wgCount = e.wgCount - 1 := by
  cases sg <;>
    simp [processSignal, workerFlush, drainDeliver_eq, List.map_map,
      Function.comp]

/-- The FIFO/teardown invariant holds along every system trace. -/
theorem sysSteps_inv (e0 e : Engine) (hg0 : e0.gameOver = false)
    (h : SysSteps e0 e) : EngInv e0 e := by
  induction h with
  | refl =>
    refine ⟨[], [], by simp, ?_, by simp [hg0]⟩
    rw [List.forall₂_same]
    intro s _
    exact ⟨by simp, by simp [hg0]⟩
  | @tail emid efin h1 h2 ih =>
    obtain ⟨del, nm, hq, hfa, hgo⟩ := ih
    cases h2 with
    | enqueue m hg =>
      refine ⟨del, nm ++ [m], ?_, ?_, ?_⟩
      · show e0.queue ++ (nm ++ [m]) = del ++ (emid.queue ++ [m])
        rw [← List.append_assoc, hq, List.append_assoc]
      · exact hfa
      · intro hcontr
        have hc2 : emid.gameOver = true := hcontr
        rw [hg] at hc2
        simp at hc2
    | sendSignal sg hg hs =>
      refine ⟨del, nm, hq, hfa, ?_⟩
      intro hcontr
      have hc2 : emid.gameOver = true := hcontr
      rw [hg] at hc2
      simp at hc2
    | recvMsg m rest hg hq2 =>
      refine ⟨del ++ [m], nm, ?_, ?_, ?_⟩
      · show e0.queue ++ nm = (del ++ [m]) ++ rest
        rw [hq, hq2]
        simp
      · show List.Forall₂ _ e0.sinks (writeToAppenderRec emid.sinks m)
        rw [writeToAppenderRec, List.forall₂_map_right_iff]
        refine hfa.imp ?_
        intro s0 s hr
        constructor
        · show (recWrite s m).received = s0.received ++ (del ++ [m])
          rw [recWrite]
          simp only
          rw [hr.1, List.append_assoc]
        · show (recWrite s m).destroyCount = _
          rw [recWrite]
          simp only
          rw [hr.2, hg]
      · intro hcontr
        have hc2 : emid.gameOver = true := hcontr
        rw [hg] at hc2
        simp at hc2
    | recvSignal sg hg hs =>
      obtain ⟨hq2, hs2, hsk2, hgo2, hac2, hwg2⟩ := processSignal_fields emid sg
      refine ⟨del ++ emid.queue, nm, ?_, ?_, ?_⟩
      · rw [hq2, hq]
        simp
      · rw [hsk2, List.forall₂_map_right_iff]
        refine hfa.imp ?_
        intro s0 s hr
        constructor
        · simp only
          rw [hr.1, List.append_assoc]
        · simp only
          rw [hr.2, hg, hgo2]
          cases sg <;> simp [hg]
      · intro _
        exact hq2

/-- C4: in asynchronous mode the worker acts on a control token only
after delivering every message enqueued strictly before it: along any
interleaving, once "close" has been processed every sink has received, in
FIFO order, everything that was queued (and `Destroy` ran exactly once);
processing a token first drains the queue to the sinks; and `Flush`
returns with the queue drained, the engine still running and the
wait-group counter restored, so further `Flush` calls are accepted. -/
theorem claim4_drain_then_act :
    (∀ e0 e : Engine, e0.gameOver = false → SysSteps e0 e →
      e.gameOver = true →
      e.queue = [] ∧
      List.Forall₂ (fun s0 s =>
        (s0.received ++ e0.queue).isPrefixOf s.received = true ∧
        s.destroyCount = s0.destroyCount + 1) e0.sinks e.sinks) ∧
    (∀ (e : Engine) (sg : Token),
      (processSignal e sg).queue = [] ∧
      (processSignal e sg).sinks = e.sinks.map (fun s =>
        { s with received := s.received ++ e.queue,
                 flushCount := s.flushCount + 1,
                 destroyCount := s.destroyCount +
                   (if sg = Token.close then 1 else 0) }) ∧
      (processSignal e sg).gameOver =
        (if sg = Token.close then true else e.gameOver)) ∧
    (∀ e : Engine, e.gameOver = false →
      (FlushAsync e).queue = [] ∧ (FlushAsync e).gameOver = false ∧
      (FlushAsync e).signal = none ∧ (FlushAsync e).wgCount = e.wgCount ∧
      (FlushAsync e).sinks = e.sinks.map (fun s =>
        { s with received := s.received ++ e.queue,
                 flushCount := s.flushCount + 1 })) := by
  refine ⟨?_, ?_, ?_⟩
  · intro e0 e hg0 hsteps hclose
    obtain ⟨del, nm, hq, hfa, hgo⟩ := sysSteps_inv e0 e hg0 hsteps
    have hqe : e.queue = [] := hgo hclose
    have hdel : del = e0.queue ++ nm := by
      rw [hqe, List.append_nil] at hq
      exact hq.symm
    refine ⟨hqe, ?_⟩
    refine hfa.imp ?_
    intro s0 s hr
    constructor
    · rw [hr.1, hdel, List.isPrefixOf_iff_prefix, ← List.append_assoc]
      exact List.prefix_append _ _
    · rw [hr.2, hclose]
      rfl
  · intro e sg
    obtain ⟨h1, _, h3, h4, _, _⟩ := processSignal_fields e sg
    exact ⟨h1, h3, h4⟩
  · intro e hg
    obtain ⟨h1, h2, h3, h4, h5, h6⟩ :=
      processSignal_fields { e with signal := some Token.flush } Token.flush
    refine ⟨h1, ?_, h2, ?_, ?_⟩
    · rw [show (FlushAsync e).gameOver =
        (processSignal { e with signal := some Token.flush }
          Token.flush).gameOver from rfl, h4]
      simpa using hg
    · show (processSignal { e with signal := some Token.flush }
        Token.flush).wgCount + 1 = e.wgCount
      rw [h6]
      show e.wgCount - 1 + 1 = e.wgCount
      omega
    · rw [show (FlushAsync e).sinks =
        (processSignal { e with signal := some Token.flush }
          Token.flush).sinks from rfl, h3]
      apply List.map_congr_left
      intro s _
      simp

/-- Witness for C4: one queued message and a pending "close" token; one
worker step processes the token, which drains the message to the sink
before Destroy. -/
theorem claim4_witness :
    (processSignal engTest Token.close).queue = [] ∧
    List.Forall₂ (fun s0 s =>
      (s0.received ++ engTest.queue).isPrefixOf s.received = true ∧
      s.destroyCount = s0.destroyCount + 1) engTest.sinks
      (processSignal engTest Token.close).sinks :=
  claim4_drain_then_act.1 engTest (processSignal engTest Token.close) rfl
    (Relation.ReflTransGen.single
      (SysStep.recvSignal engTest Token.close rfl rfl))
    (by decide)

end Logg
